import Mathlib

set_option maxHeartbeats 1000000

/-
Verification of the key-material packet subsystem and packet-list codec of an
OpenPGP implementation (public_key.js, one_pass_signature.js, packetlist.js,
ecdsa.js and the secret-key packet).  Byte arrays are modelled as List Nat,
machine integers as Nat with explicit % 256 where overflow matters.  External
cryptographic collaborators (hashes, ciphers, S2K key derivation, parameter
codecs) are abstract function fields of oracle structures, so every theorem
about the packet logic is quantified over them.
-/

/-- Modelled from the spec: util.writeNumber, the uint16be / uint32be encoder:
a natural number serialized as the given count of big-endian octets
(the source file util.js is not part of the analysed sources). -/
def writeNumber (n : Nat) (numBytes : Nat) : List Nat :=
  (List.range numBytes).map (fun i => n / 256 ^ (numBytes - 1 - i) % 256)

/-- Modelled from the spec: util.writeDate stores the whole-second creation
timestamp as a four-octet big-endian number. -/
def writeDate (t : Nat) : List Nat :=
  writeNumber t 4

/-- External crypto collaborators used by public_key.js: the algorithm-specific
public-parameter serializer (crypto.serializeParams) and the two fingerprint
hashes (Sha1.bytes / Sha256.bytes).  The spec treats these as black boxes, so
they are abstract function fields; theorems hold for every instantiation. -/
structure PKCrypto where
  serializeParams : Nat → List Nat → List Nat
  sha1 : List Nat → List Nat
  sha256 : List Nat → List Nat

/-- State of a PublicKeyPacket (public_key.js): version, creation time,
algorithm code, serialized-opaque public params, and the two caches
(fingerprint, keyID), which are null (none) until first computed. -/
structure PublicKeyPacket where
  version : Nat
  created : Nat
  algorithm : Nat
  publicParams : List Nat
  fingerprint : Option (List Nat)
  keyID : Option (List Nat)

/-- PublicKeyPacket.write (aliased as writePublicKey): version octet, 4-octet
date, algorithm octet, for v5 a 4-octet params length, then the params. -/
def writePublicKey (c : PKCrypto) (pkt : PublicKeyPacket) : List Nat :=
  let params := c.serializeParams pkt.algorithm pkt.publicParams
  [pkt.version] ++ writeDate pkt.created ++ [pkt.algorithm]
    ++ (if pkt.version = 5 then writeNumber params.length 4 else []) ++ params

/-- PublicKeyPacket.writeForHash: frames the written packet for hashing,
0x9A (154) with a 4-octet length for v5, otherwise 0x99 (153) with a
2-octet length. -/
def writeForHash (c : PKCrypto) (pkt : PublicKeyPacket) (version : Nat) : List Nat :=
  let bytes := writePublicKey c pkt
  if version = 5 then 154 :: (writeNumber bytes.length 4 ++ bytes)
  else 153 :: (writeNumber bytes.length 2 ++ bytes)

/-- PublicKeyPacket.getFingerprintBytes: returns the cached fingerprint when
present; otherwise hashes writeForHash(version) with Sha256 for v5 or Sha1
for v4, stores the result in the cache field, and returns it.  For any other
version the fingerprint stays null.  The updated packet is returned alongside
the result to model the mutation of the cache field. -/
def getFingerprintBytes (c : PKCrypto) (pkt : PublicKeyPacket) :
    Option (List Nat) × PublicKeyPacket :=
  match pkt.fingerprint with
  | some fp => (some fp, pkt)
  | none =>
    let toHash := writeForHash c pkt pkt.version
    if pkt.version = 5 then
      let fp := c.sha256 toHash
      (some fp, { pkt with fingerprint := some fp })
    else if pkt.version = 4 then
      let fp := c.sha1 toHash
      (some fp, { pkt with fingerprint := some fp })
    else (none, pkt)

/-- Claim C1: for every public-key packet with its fields set (fingerprint not
yet cached), getFingerprintBytes returns SHA-1 of 0x99 with uint16be length and
the write() output when the version is 4, SHA-256 of 0x9A with uint32be length
and the write() output when the version is 5, the result being stored in the
cache; and whenever the cache is already populated the cached value is
returned with the packet untouched. -/
theorem getFingerprintBytes_frames_and_caches (c : PKCrypto) (pkt : PublicKeyPacket)
    (hfp : pkt.fingerprint = none) :
    (pkt.version = 4 →
      getFingerprintBytes c pkt =
        (some (c.sha1 (153 ::
            (writeNumber (writePublicKey c pkt).length 2 ++ writePublicKey c pkt))),
         { pkt with fingerprint := some (c.sha1 (153 ::
            (writeNumber (writePublicKey c pkt).length 2 ++ writePublicKey c pkt))) }))
    ∧ (pkt.version = 5 →
      getFingerprintBytes c pkt =
        (some (c.sha256 (154 ::
            (writeNumber (writePublicKey c pkt).length 4 ++ writePublicKey c pkt))),
         { pkt with fingerprint := some (c.sha256 (154 ::
            (writeNumber (writePublicKey c pkt).length 4 ++ writePublicKey c pkt))) }))
    ∧ (∀ fp pkt2, pkt2.fingerprint = some fp →
        getFingerprintBytes c pkt2 = (some fp, pkt2)) := by
  refine ⟨?_, ?_, ?_⟩
  · intro hv
    simp [getFingerprintBytes, hfp, writeForHash, hv]
  · intro hv
    simp [getFingerprintBytes, hfp, writeForHash, hv]
  · intro fp pkt2 h2
    simp [getFingerprintBytes, h2]

/-- Concrete crypto oracle used by the fingerprint witnesses: the parameter
serializer is the identity on the opaque bytes, and the two hashes are
injective taggings so that distinct inputs stay distinguishable. -/
def wPKCrypto : PKCrypto :=
  { serializeParams := fun _ p => p
    sha1 := fun l => 1 :: l
    sha256 := fun l => 2 :: l }

/-- Concrete v4 public-key packet with an empty cache. -/
def wPkt4 : PublicKeyPacket :=
  { version := 4, created := 0, algorithm := 1, publicParams := []
    fingerprint := none, keyID := none }

/-- Witness for C1: evaluating the claim at a concrete v4 packet. -/
theorem getFingerprintBytes_frames_and_caches_witness :
    getFingerprintBytes wPKCrypto wPkt4 =
      (some [1, 153, 0, 6, 4, 0, 0, 0, 0, 1],
       { wPkt4 with fingerprint := some [1, 153, 0, 6, 4, 0, 0, 0, 0, 1] }) :=
  (getFingerprintBytes_frames_and_caches wPKCrypto wPkt4 rfl).1 rfl

/-- Modelled from the spec: util.uint8ArrayToHex renders a byte array as its
hex string; hex digits are modelled as nibble values (the source file util.js
is not part of the analysed sources). -/
def uint8ArrayToHex (bytes : List Nat) : List Nat :=
  (bytes.map (fun b => [b / 16, b % 16])).flatten

/-- Modelled from the spec: util.hexToUint8Array parses a hex string back
into bytes, two digits per byte. -/
def hexToUint8Array : List Nat → List Nat
  | a :: b :: rest => (16 * a + b) :: hexToUint8Array rest
  | _ => []

theorem hex_roundtrip (l : List Nat) : hexToUint8Array (uint8ArrayToHex l) = l := by
  induction l with
  | nil => rfl
  | cons b t ih =>
    have h1 : uint8ArrayToHex (b :: t) = b / 16 :: b % 16 :: uint8ArrayToHex t := by
      simp [uint8ArrayToHex]
    rw [h1]
    simp only [hexToUint8Array, Nat.div_add_mod, ih]

/-- Modelled from the spec: type/keyid is not among the analysed sources; a
KeyID holds the eight wire octets, and its read copies the first 8 bytes of
the given array. -/
def keyIDRead (bytes : List Nat) : List Nat :=
  bytes.take 8

/-- PublicKeyPacket.getKeyID: returns the cached key ID when present;
otherwise converts the (hex) fingerprint back to bytes and reads the key ID
from subarray(0, 8) for v5 or subarray(12, 20) for v4, caching the result.
The fingerprint cache is populated as a side effect via getFingerprintBytes. -/
def getKeyID (c : PKCrypto) (pkt : PublicKeyPacket) : List Nat × PublicKeyPacket :=
  match pkt.keyID with
  | some k => (k, pkt)
  | none =>
    let r := getFingerprintBytes c pkt
    let fpBytes := hexToUint8Array (uint8ArrayToHex (r.1.getD []))
    let k :=
      if pkt.version = 5 then keyIDRead (fpBytes.take 8)
      else if pkt.version = 4 then keyIDRead ((fpBytes.drop 12).take 8)
      else []
    (k, { r.2 with keyID := some k })

/-- Claim C2: for every public-key packet (key ID not yet cached) whose
fingerprint computes to fp, getKeyID returns bytes 12..20 of fp when the
version is 4 and bytes 0..8 of fp when the version is 5. -/
theorem getKeyID_from_fingerprint (c : PKCrypto) (pkt : PublicKeyPacket)
    (hk : pkt.keyID = none) (fp : List Nat)
    (hfp : (getFingerprintBytes c pkt).1 = some fp) :
    (pkt.version = 4 → (getKeyID c pkt).1 = (fp.drop 12).take 8)
    ∧ (pkt.version = 5 → (getKeyID c pkt).1 = fp.take 8) := by
  constructor
  · intro hv
    simp [getKeyID, hk, hfp, hv, hex_roundtrip, keyIDRead, List.take_take]
  · intro hv
    simp [getKeyID, hk, hfp, hv, hex_roundtrip, keyIDRead, List.take_take]

/-- Concrete crypto oracle for the key-ID witness: hashes of the realistic
digest lengths (20 bytes for SHA-1, 32 for SHA-256). -/
def w2PKCrypto : PKCrypto :=
  { serializeParams := fun _ p => p
    sha1 := fun _ => List.range 20
    sha256 := fun _ => List.range 32 }

/-- Witness for C2: on a concrete v4 packet whose fingerprint is the 20-byte
array 0..19, the key ID is bytes 12..19. -/
theorem getKeyID_from_fingerprint_witness :
    (getKeyID w2PKCrypto wPkt4).1 = [12, 13, 14, 15, 16, 17, 18, 19] :=
  (getKeyID_from_fingerprint w2PKCrypto wPkt4 rfl (List.range 20) rfl).1 rfl

/-- Concrete packet for the C7 counterexample: wPkt4 after its fingerprint
has been computed and cached, then with the created field mutated. -/
def cexPktMutated : PublicKeyPacket :=
  { (getFingerprintBytes wPKCrypto wPkt4).2 with created := 1 }

/-- Counterexample to claim C7: computing the fingerprint of a v4 packet,
then mutating created, does NOT invalidate the cache: the subsequent
getFingerprintBytes returns the stale cached value, which differs from the
fingerprint computed from the new field values. -/
theorem fingerprint_cache_stale_counterexample :
    (getFingerprintBytes wPKCrypto cexPktMutated).1 = some [1, 153, 0, 6, 4, 0, 0, 0, 0, 1]
    ∧ (getFingerprintBytes wPKCrypto cexPktMutated).1 ≠
        some (wPKCrypto.sha1 (writeForHash wPKCrypto cexPktMutated 4)) := by
  constructor
  · rfl
  · decide

/-- Claim C7 as amended: the fingerprint computed with an empty cache depends
only on (version, created, algorithm, publicParams); but mutation of these
fields does not invalidate the cache: once the fingerprint field is populated,
getFingerprintBytes returns the previously cached value regardless of the
current field values. -/
theorem fingerprint_cache_amended (c : PKCrypto) :
    (∀ pkt1 pkt2 : PublicKeyPacket, pkt1.fingerprint = none → pkt2.fingerprint = none →
      pkt1.version = pkt2.version → pkt1.created = pkt2.created →
      pkt1.algorithm = pkt2.algorithm → pkt1.publicParams = pkt2.publicParams →
      (getFingerprintBytes c pkt1).1 = (getFingerprintBytes c pkt2).1)
    ∧ (∀ (pkt : PublicKeyPacket) (fp : List Nat), pkt.fingerprint = some fp →
        (getFingerprintBytes c pkt).1 = some fp) := by
  constructor
  · intro pkt1 pkt2 h1 h2 hv hc ha hp
    obtain ⟨v1, c1, a1, p1, f1, k1⟩ := pkt1
    obtain ⟨v2, c2, a2, p2, f2, k2⟩ := pkt2
    simp only at h1 h2 hv hc ha hp
    subst h1 h2 hv hc ha hp
    by_cases hv5 : v1 = 5 <;> by_cases hv4 : v1 = 4 <;>
      simp [getFingerprintBytes, writeForHash, writePublicKey, hv5, hv4]
  · intro pkt fp h
    simp [getFingerprintBytes, h]

/-- Witness for the amended C7: two concrete packets differing only in the
keyID cache get equal fingerprints, and a packet with a pre-populated
fingerprint cache returns the cached value. -/
theorem fingerprint_cache_amended_witness :
    (getFingerprintBytes wPKCrypto wPkt4).1 =
      (getFingerprintBytes wPKCrypto { wPkt4 with keyID := some [7] }).1
    ∧ (getFingerprintBytes wPKCrypto { wPkt4 with fingerprint := some [9] }).1 = some [9] :=
  ⟨(fingerprint_cache_amended wPKCrypto).1 wPkt4 { wPkt4 with keyID := some [7] }
      rfl rfl rfl rfl rfl rfl,
   (fingerprint_cache_amended wPKCrypto).2 { wPkt4 with fingerprint := some [9] } [9] rfl⟩

/-- State of a OnePassSignaturePacket (one_pass_signature.js, tag 4).  Enum
fields hold the numeric wire codes; enums.read / enums.write pass numeric
codes through unchanged on this path. -/
structure OnePassSignaturePacket where
  version : Nat
  signatureType : Nat
  hashAlgorithm : Nat
  publicKeyAlgorithm : Nat
  issuerKeyID : List Nat
  flags : Nat

/-- OnePassSignaturePacket.read: stores the first octet as the version, the
next three octets as signature type, hash algorithm and public-key algorithm,
octets 4..12 as the issuer key ID and octet 12 as the flags.  The source
function body contains no validation and no throw, which the Except result
type makes explicit: every input parses to ok. -/
def onePassRead (bytes : List Nat) : Except String OnePassSignaturePacket :=
  Except.ok
    { version := bytes.getD 0 0
      signatureType := bytes.getD 1 0
      hashAlgorithm := bytes.getD 2 0
      publicKeyAlgorithm := bytes.getD 3 0
      issuerKeyID := keyIDRead ((bytes.drop 4).take 8)
      flags := bytes.getD 12 0 }

/-- OnePassSignaturePacket.write: the literal constant 3, the three algorithm
octets, the eight key-ID octets and the flags octet.  The version field of the
packet is not consulted. -/
def onePassWrite (p : OnePassSignaturePacket) : List Nat :=
  [3, p.signatureType, p.hashAlgorithm, p.publicKeyAlgorithm]
    ++ p.issuerKeyID ++ [p.flags]

/-- Counterexample to claim C8: a 13-byte input whose version octet is 4 is
read without any failure; the packet is populated with version 4, so read does
not fail with UnsupportedVersion for inputs whose first octet is not 3. -/
theorem onePassRead_no_version_check_counterexample :
    onePassRead [4, 0, 8, 19, 10, 11, 12, 13, 14, 15, 16, 17, 1] =
      Except.ok
        { version := 4, signatureType := 0, hashAlgorithm := 8,
          publicKeyAlgorithm := 19, issuerKeyID := [10, 11, 12, 13, 14, 15, 16, 17],
          flags := 1 }
    ∧ (4 : Nat) ≠ 3 := by
  constructor
  · rfl
  · decide

/-- Claim C8 as amended: OnePassSignaturePacket.read never fails; it stores
the first octet as the version without validating it, for every input. -/
theorem onePassRead_never_fails (bytes : List Nat) :
    ∃ p, onePassRead bytes = Except.ok p ∧ p.version = bytes.getD 0 0 := by
  exact ⟨_, rfl, rfl⟩

/-- Claim C10: for every one-pass signature packet whose issuer key ID holds
its 8 wire octets, write() returns exactly 13 bytes, the first being the
constant 3 regardless of the stored version field (write does not read the
version at all), followed by signatureType, hashAlgorithm, publicKeyAlgorithm,
the 8 key-ID bytes and the flags octet, in that order. -/
theorem onePassWrite_layout (p : OnePassSignaturePacket)
    (hk : p.issuerKeyID.length = 8) :
    (onePassWrite p).length = 13
    ∧ onePassWrite p =
        [3, p.signatureType, p.hashAlgorithm, p.publicKeyAlgorithm]
          ++ p.issuerKeyID ++ [p.flags]
    ∧ (∀ v, onePassWrite { p with version := v } = onePassWrite p) := by
  refine ⟨?_, rfl, fun v => rfl⟩
  simp [onePassWrite, hk]

/-- Witness for C10: a concrete packet whose stored version is 7 still writes
13 bytes starting with the constant 3. -/
theorem onePassWrite_layout_witness :
    (onePassWrite
        { version := 7, signatureType := 0, hashAlgorithm := 8,
          publicKeyAlgorithm := 19, issuerKeyID := [10, 11, 12, 13, 14, 15, 16, 17],
          flags := 1 }).length = 13 :=
  (onePassWrite_layout
    { version := 7, signatureType := 0, hashAlgorithm := 8,
      publicKeyAlgorithm := 19, issuerKeyID := [10, 11, 12, 13, 14, 15, 16, 17],
      flags := 1 } rfl).1

/-- Type of the message argument of the ECDSA sign / verify entry points: a
contiguous byte array or a stream (identified abstractly). -/
inductive EcdsaMessage
  | bytes (data : List Nat)
  | stream (id : Nat)

/-- util.isStream restricted to the message argument; null maps to none. -/
def isStreamMsg : Option EcdsaMessage → Bool
  | some (EcdsaMessage.stream _) => true
  | _ => false

/-- Back-end tier of a curve (curve.type in curves.js): web crypto, node
crypto, or neither (pure software via the indutny elliptic library). -/
inductive CurveTier
  | web
  | node
  | standard

/-- The per-curve data the sign entry point consults: the tier and the curve
name (p521 is special-cased). -/
structure EcdsaCurve where
  name : String
  tier : CurveTier

/-- A JavaScript error as observed by the fallback logic: its name decides
whether it is a key-integrity error (DataError / OperationError). -/
structure JsError where
  name : String
  message : String

/-- An (r, s) signature pair. -/
structure EcdsaSig where
  r : List Nat
  s : List Nat

/-- External ECDSA back-ends (webSign, nodeSign, ellipticSign in ecdsa.js):
abstract oracles, theorems hold for every instantiation. -/
structure EcdsaCrypto where
  webSign : EcdsaCurve → Nat → List Nat → List Nat → List Nat → Except JsError EcdsaSig
  nodeSign : EcdsaCurve → Nat → List Nat → List Nat → List Nat → EcdsaSig
  ellipticSign : EcdsaCurve → List Nat → List Nat → EcdsaSig

/-- The sign entry point of ecdsa.js: when the message is present and not a
stream, try the platform tier for web / node curves (web falling back to the
software tier unless the error is a key-integrity error on a curve other than
p521); in every other case, including a streamed message, sign with the
software tier over the pre-computed digest. -/
def ecdsaSign (c : EcdsaCrypto) (curve : EcdsaCurve) (hashAlgo : Nat)
    (message : Option EcdsaMessage) (publicKey privateKey hashed : List Nat) :
    Except JsError EcdsaSig :=
  match message with
  | some (EcdsaMessage.bytes data) =>
    match curve.tier with
    | CurveTier.web =>
      match c.webSign curve hashAlgo data publicKey privateKey with
      | Except.ok sig => Except.ok sig
      | Except.error err =>
        if curve.name ≠ "p521" ∧ (err.name = "DataError" ∨ err.name = "OperationError") then
          Except.error err
        else
          Except.ok (c.ellipticSign curve hashed privateKey)
    | CurveTier.node => Except.ok (c.nodeSign curve hashAlgo data publicKey privateKey)
    | CurveTier.standard => Except.ok (c.ellipticSign curve hashed privateKey)
  | _ => Except.ok (c.ellipticSign curve hashed privateKey)

/-- Claim C9: for every sign request whose message argument is a stream, the
platform tier is bypassed and the signature is the software-tier signature
over the pre-computed digest, for every curve and every back-end oracle
(the result does not depend on webSign or nodeSign at all). -/
theorem ecdsaSign_stream_bypasses_platform (c : EcdsaCrypto) (curve : EcdsaCurve)
    (hashAlgo : Nat) (message : Option EcdsaMessage)
    (publicKey privateKey hashed : List Nat)
    (hs : isStreamMsg message = true) :
    ecdsaSign c curve hashAlgo message publicKey privateKey hashed =
      Except.ok (c.ellipticSign curve hashed privateKey) := by
  match message with
  | some (EcdsaMessage.stream i) => rfl
  | some (EcdsaMessage.bytes d) => simp [isStreamMsg] at hs
  | none => simp [isStreamMsg] at hs

/-- Witness for C9: a concrete streamed message on a concrete web-tier curve
is signed by the software tier. -/
theorem ecdsaSign_stream_bypasses_platform_witness :
    ecdsaSign
      { webSign := fun _ _ _ _ _ => Except.ok { r := [1], s := [1] }
        nodeSign := fun _ _ _ _ _ => { r := [2], s := [2] }
        ellipticSign := fun _ _ _ => { r := [3], s := [3] } }
      { name := "p256", tier := CurveTier.web } 8
      (some (EcdsaMessage.stream 0)) [5] [6] [7] =
      Except.ok { r := [3], s := [3] } :=
  ecdsaSign_stream_bypasses_platform
    { webSign := fun _ _ _ _ _ => Except.ok { r := [1], s := [1] }
      nodeSign := fun _ _ _ _ _ => { r := [2], s := [2] }
      ellipticSign := fun _ _ _ => { r := [3], s := [3] } }
    { name := "p256", tier := CurveTier.web } 8
    (some (EcdsaMessage.stream 0)) [5] [6] [7] rfl

/-- Modelled from the spec: supportsStreaming (packet.js, not among the
analysed sources): only the fixed subset of tags carrying bulk message data
may use partial-length bodies: compressed (8), symmetrically encrypted (9),
literal data (11), sym. encrypted integrity protected (18), AEAD encrypted
(20). -/
def supportsStreaming (tag : Nat) : Bool :=
  tag == 8 || tag == 9 || tag == 11 || tag == 18 || tag == 20

/-- A packet as delivered by PacketList.read, with its concrete tag and body. -/
structure ParsedPacket where
  tag : Nat
  body : List Nat

/-- A token of the packet tokenizer (readPackets): the framed tag together
with the outcome of instantiating the packet class and running its read on
the body.  Per-packet parsing is packet-type specific and therefore
abstracted as an outcome carried by the token. -/
structure PacketToken where
  tag : Nat
  parsed : Except String ParsedPacket

/-- The per-token loop of PacketList.read: a successfully parsed packet is
written to the output; on a parse error the list is aborted with that error
when the tag is streaming-capable or config.tolerant is false, and the packet
is skipped (after logging) otherwise. -/
def readPacketList (tolerant : Bool) : List PacketToken → Except String (List ParsedPacket)
  | [] => Except.ok []
  | t :: ts =>
    match t.parsed with
    | Except.ok p =>
      match readPacketList tolerant ts with
      | Except.ok l => Except.ok (p :: l)
      | Except.error e => Except.error e
    | Except.error e =>
      if !tolerant || supportsStreaming t.tag then Except.error e
      else readPacketList tolerant ts

/-- The packets of the tokens whose parse succeeded, in order. -/
def okPackets (ts : List PacketToken) : List ParsedPacket :=
  ts.filterMap (fun t => t.parsed.toOption)

theorem readPacketList_all_ok (tolerant : Bool) (ts : List PacketToken)
    (hall : ∀ t ∈ ts, ∃ p, t.parsed = Except.ok p) :
    readPacketList tolerant ts = Except.ok (okPackets ts) := by
  induction ts with
  | nil => rfl
  | cons t rest ih =>
    obtain ⟨p, hp⟩ := hall t (List.mem_cons_self t rest)
    have hrest := ih (fun u hu => hall u (List.mem_cons_of_mem t hu))
    simp [readPacketList, okPackets, hp, hrest, List.filterMap_cons, Except.toOption]

/-- Claim C4: during PacketList.read, when the read of one packet fails with
a parse error, the whole list read aborts with that error if and only if the
tag is streaming-capable or config.tolerant is false; otherwise the offending
packet is skipped and the surrounding packets are still delivered. -/
theorem readPacketList_tolerant_policy (tolerant : Bool) (pre post : List PacketToken)
    (bad : PacketToken) (e : String)
    (hpre : ∀ t ∈ pre, ∃ p, t.parsed = Except.ok p)
    (hpost : ∀ t ∈ post, ∃ p, t.parsed = Except.ok p)
    (hbad : bad.parsed = Except.error e) :
    (readPacketList tolerant (pre ++ bad :: post) = Except.error e ↔
      (supportsStreaming bad.tag = true ∨ tolerant = false))
    ∧ ((supportsStreaming bad.tag = false ∧ tolerant = true) →
        readPacketList tolerant (pre ++ bad :: post) =
          Except.ok (okPackets pre ++ okPackets post)) := by
  induction pre with
  | nil =>
    simp only [List.nil_append]
    constructor
    · by_cases hc : (!tolerant || supportsStreaming bad.tag) = true
      · have : readPacketList tolerant (bad :: post) = Except.error e := by
          simp [readPacketList, hbad, hc]
        rw [this]
        simp only [Bool.or_eq_true, Bool.not_eq_eq_eq_not, Bool.not_true] at hc
        constructor
        · intro _
          rcases hc with h | h
          · right
            simpa using h
          · left
            exact h
        · intro _
          rfl
      · have hcf : (!tolerant || supportsStreaming bad.tag) = false := by
          simpa using hc
        have hok : readPacketList tolerant (bad :: post) = Except.ok (okPackets post) := by
          simp [readPacketList, hbad, hcf]
          exact readPacketList_all_ok tolerant post hpost
        rw [hok]
        constructor
        · intro h
          exact absurd h (by simp)
        · intro h
          rcases h with h | h
          · simp [h] at hcf
          · simp [h] at hcf
    · intro ⟨hns, ht⟩
      have hcf : (!tolerant || supportsStreaming bad.tag) = false := by
        simp [hns, ht]
      have hpost2 := readPacketList_all_ok tolerant post hpost
      simp [readPacketList, hbad, hcf, okPackets, hpost2]
  | cons t rest ih =>
    obtain ⟨p, hp⟩ := hpre t (List.mem_cons_self t rest)
    have ihr := ih (fun u hu => hpre u (List.mem_cons_of_mem t hu))
    constructor
    · rw [List.cons_append]
      constructor
      · intro h
        apply ihr.1.mp
        by_cases hinner :
            readPacketList tolerant (rest ++ bad :: post) = Except.error e
        · exact hinner
        · exfalso
          revert h
          simp only [readPacketList, hp]
          match hm : readPacketList tolerant (rest ++ bad :: post) with
          | Except.ok l => simp
          | Except.error e2 =>
            intro hcontr
            apply hinner
            rw [hm]
            simpa using hcontr
      · intro h
        have hinner := ihr.1.mpr h
        simp [readPacketList, hp, hinner]
    · intro h
      have hinner := ihr.2 h
      rw [List.cons_append]
      simp [readPacketList, hp, hinner, okPackets, List.filterMap_cons, Except.toOption]

/-- Concrete three-token stream for the C4 witness: a public key (tag 6), a
failing non-streaming packet (tag 2), a user ID (tag 13). -/
def wTokens : List PacketToken :=
  [{ tag := 6, parsed := Except.ok { tag := 6, body := [1] } },
   { tag := 2, parsed := Except.error "Invalid MPI" },
   { tag := 13, parsed := Except.ok { tag := 13, body := [2] } }]

theorem wTokens_pre_ok :
    ∀ t ∈ [({ tag := 6, parsed := Except.ok { tag := 6, body := [1] } } : PacketToken)],
      ∃ p, t.parsed = Except.ok p := by
  intro t ht
  rw [List.mem_singleton] at ht
  subst ht
  exact ⟨_, rfl⟩

theorem wTokens_post_ok :
    ∀ t ∈ [({ tag := 13, parsed := Except.ok { tag := 13, body := [2] } } : PacketToken)],
      ∃ p, t.parsed = Except.ok p := by
  intro t ht
  rw [List.mem_singleton] at ht
  subst ht
  exact ⟨_, rfl⟩

/-- Witness for C4: with tolerant mode the bad middle packet is skipped and
packets 1 and 3 are delivered; with tolerant off the read aborts. -/
theorem readPacketList_tolerant_policy_witness :
    readPacketList true wTokens =
      Except.ok [{ tag := 6, body := [1] }, { tag := 13, body := [2] }]
    ∧ readPacketList false wTokens = Except.error "Invalid MPI" :=
  ⟨(readPacketList_tolerant_policy true
      [{ tag := 6, parsed := Except.ok { tag := 6, body := [1] } }]
      [{ tag := 13, parsed := Except.ok { tag := 13, body := [2] } }]
      { tag := 2, parsed := Except.error "Invalid MPI" } "Invalid MPI"
      wTokens_pre_ok wTokens_post_ok rfl).2 ⟨rfl, rfl⟩,
   (readPacketList_tolerant_policy false
      [{ tag := 6, parsed := Except.ok { tag := 6, body := [1] } }]
      [{ tag := 13, parsed := Except.ok { tag := 13, body := [2] } }]
      { tag := 2, parsed := Except.error "Invalid MPI" } "Invalid MPI"
      wTokens_pre_ok wTokens_post_ok rfl).1.mpr (Or.inr rfl)⟩

/-- S2K specifier type (type/s2k.js): the three standard forms plus the
gnu-dummy sentinel. -/
inductive S2KType
  | simple
  | salted
  | iteratedSalted
  | gnuDummy
deriving DecidableEq

/-- Modelled from the spec: the S2K specifier is a black-box collaborator
(type/s2k.js is not among the analysed sources); only the fields the
secret-key packet consults are kept. -/
structure S2K where
  s2kType : S2KType
  algorithm : Nat
  salt : List Nat
  c : Nat
deriving DecidableEq

/-- State of a SecretKeyPacket (extends PublicKeyPacket; only the fields the
secret-material lifecycle touches are modelled here).  privateParams holds
indices into the private-parameter store, so that views of the parameter
arrays retained elsewhere alias the same cells. -/
structure SecretKeyPacket where
  version : Nat
  algorithm : Nat
  publicParams : List Nat
  s2kUsage : Nat
  symmetric : Nat
  aead : Nat
  s2k : Option S2K
  iv : List Nat
  keyMaterial : Option (List Nat)
  isEncrypted : Option Bool
  privateParams : Option (List Nat)
deriving DecidableEq

/-- SecretKeyPacket.isDummy: true iff an S2K is present and its type is
gnu-dummy. -/
def isDummySK (st : SecretKeyPacket) : Bool :=
  match st.s2k with
  | some s => s.s2kType = S2KType.gnuDummy
  | none => false

/-- External collaborators of SecretKeyPacket.decrypt: cipher table key size,
S2K key derivation, AEAD mode (iv length and decrypt, failing with the
message Authentication tag mismatch on a bad tag), CFB decrypt, SHA-1, and
the algorithm-specific private-parameter parser.  All abstract; theorems hold
for every instantiation. -/
structure SKCrypto where
  keySize : Nat → Nat
  produceKey : S2K → String → Nat → List Nat
  ivLength : Nat → Nat
  aeadDecrypt : Nat → Nat → List Nat → List Nat → List Nat → List Nat →
    Except String (List Nat)
  cfbDecrypt : Nat → List Nat → List Nat → List Nat → List Nat
  sha1 : List Nat → List Nat
  parsePrivateKeyParams : Nat → List Nat → List Nat → Except String (List Nat)

/-- The tail of SecretKeyPacket.decrypt after the cleartext has been
recovered: parse the private params (failure becomes Error reading MPIs,
leaving the state untouched), then populate privateParams, clear keyMaterial,
and mark the packet decrypted. -/
def skFinishDecrypt (c : SKCrypto) (st : SecretKeyPacket) (cleartext : List Nat) :
    Except String Bool × SecretKeyPacket :=
  match c.parsePrivateKeyParams st.algorithm cleartext st.publicParams with
  | Except.error _ => (Except.error "Error reading MPIs", st)
  | Except.ok pp =>
    (Except.ok true,
     { st with privateParams := some pp, isEncrypted := some false,
               keyMaterial := none, s2kUsage := 0 })

/-- SecretKeyPacket.decrypt, with the packet state threaded explicitly: the
second component is the state of the packet when the call returns or throws.
Field assignments happen exactly where the source assigns them, so an error
result carries the state as of the throw.  For s2kUsage 253 the AEAD mode is
asked to open keyMaterial (tag failure surfaces as Incorrect key passphrase);
for 254 the CFB plaintext must end in the SHA-1 of the rest; 255 and any
other non-zero usage are rejected as insecure. -/
def skDecrypt (c : SKCrypto) (st : SecretKeyPacket) (passphrase : String) :
    Except String Bool × SecretKeyPacket :=
  if isDummySK st then (Except.ok false, st)
  else if st.isEncrypted = some false then
    (Except.error "Key packet is already decrypted.", st)
  else if st.s2kUsage = 254 ∨ st.s2kUsage = 253 then
    match st.s2k with
    | none => (Except.error "TypeError: s2k is null", st)
    | some sk =>
      let key := c.produceKey sk passphrase (c.keySize st.symmetric)
      if st.s2kUsage = 253 then
        match c.aeadDecrypt st.aead st.symmetric key (st.keyMaterial.getD [])
            (st.iv.take (c.ivLength st.aead)) [] with
        | Except.error msg =>
          if msg = "Authentication tag mismatch" then
            (Except.error ("Incorrect key passphrase: " ++ msg), st)
          else (Except.error msg, st)
        | Except.ok cleartext => skFinishDecrypt c st cleartext
      else
        let cleartextWithHash :=
          c.cfbDecrypt st.symmetric key (st.keyMaterial.getD []) st.iv
        let cleartext := cleartextWithHash.take (cleartextWithHash.length - 20)
        if c.sha1 cleartext = cleartextWithHash.drop (cleartextWithHash.length - 20) then
          skFinishDecrypt c st cleartext
        else (Except.error "Incorrect key passphrase", st)
  else if st.s2kUsage = 255 then
    (Except.error "Encrypted private key is authenticated using an insecure two-byte hash",
     st)
  else
    (Except.error "Private key is encrypted using an insecure S2K function: unsalted MD5",
     st)

/-- Claim C5: for every protected secret-key packet with s2kUsage 253 or 254,
decrypt with a passphrase whose derived key does not open the material fails
with Incorrect key passphrase (AEAD tag mismatch for 253, trailing SHA-1
mismatch for 254), and the returned state is exactly the entry state: every
field (keyMaterial, s2kUsage, isEncrypted, privateParams, iv, s2k) untouched. -/
theorem skDecrypt_wrong_passphrase (c : SKCrypto) (st : SecretKeyPacket)
    (passphrase : String) (sk : S2K)
    (hs2k : st.s2k = some sk)
    (hnotdummy : isDummySK st = false)
    (henc : st.isEncrypted = some true)
    (hmm253 : st.s2kUsage = 253 →
      c.aeadDecrypt st.aead st.symmetric
        (c.produceKey sk passphrase (c.keySize st.symmetric))
        (st.keyMaterial.getD []) (st.iv.take (c.ivLength st.aead)) [] =
        Except.error "Authentication tag mismatch")
    (hmm254 : st.s2kUsage = 254 →
      (let ct := c.cfbDecrypt st.symmetric
        (c.produceKey sk passphrase (c.keySize st.symmetric)) (st.keyMaterial.getD []) st.iv
      c.sha1 (ct.take (ct.length - 20)) ≠ ct.drop (ct.length - 20))) :
    (st.s2kUsage = 253 →
      skDecrypt c st passphrase =
        (Except.error "Incorrect key passphrase: Authentication tag mismatch", st))
    ∧ (st.s2kUsage = 254 →
      skDecrypt c st passphrase = (Except.error "Incorrect key passphrase", st)) := by
  constructor
  · intro h253
    simp [skDecrypt, hnotdummy, henc, hs2k, h253, hmm253 h253]
  · intro h254
    have hne := hmm254 h254
    simp only at hne
    simp [skDecrypt, hnotdummy, henc, hs2k, h254, hne]

/-- Concrete crypto oracle for the C5 witness: the AEAD mode always reports a
tag mismatch. -/
def wSKCrypto : SKCrypto :=
  { keySize := fun _ => 32
    produceKey := fun _ _ _ => [9, 9]
    ivLength := fun _ => 16
    aeadDecrypt := fun _ _ _ _ _ _ => Except.error "Authentication tag mismatch"
    cfbDecrypt := fun _ _ ct _ => ct
    sha1 := fun _ => [7]
    parsePrivateKeyParams := fun _ _ _ => Except.ok [0] }

/-- Concrete AEAD-protected (s2kUsage 253) secret-key packet for the C5
witness. -/
def wSK253 : SecretKeyPacket :=
  { version := 4, algorithm := 22, publicParams := [1]
    s2kUsage := 253, symmetric := 9, aead := 1
    s2k := some { s2kType := S2KType.iteratedSalted, algorithm := 8, salt := [1, 2], c := 96 }
    iv := [3, 3, 3, 3], keyMaterial := some [5, 5, 5]
    isEncrypted := some true, privateParams := none }

/-- Witness for C5: the concrete AEAD packet fails with Incorrect key
passphrase and the returned state is the entry state. -/
theorem skDecrypt_wrong_passphrase_witness :
    skDecrypt wSKCrypto wSK253 "wrong" =
      (Except.error "Incorrect key passphrase: Authentication tag mismatch", wSK253) :=
  (skDecrypt_wrong_passphrase wSKCrypto wSK253 "wrong"
      { s2kType := S2KType.iteratedSalted, algorithm := 8, salt := [1, 2], c := 96 }
      rfl rfl rfl (fun _ => rfl)
      (fun h => absurd h (by decide))).1 rfl

/-- param.fill(0) on the private-parameter store: overwrite every byte of the
array at the given index with zero (length preserved); indices beyond the
store leave it unchanged. -/
def fillZero (h : List (List Nat)) (id : Nat) : List (List Nat) :=
  h.set id (List.replicate (h.getD id []).length 0)

/-- SecretKeyPacket.clearPrivateParams: a no-op for dummy keys; otherwise
every private-parameter array is overwritten with zeros in place, the
reference list is dropped (privateParams becomes null) and isEncrypted is set
to true.  When privateParams is null the source dereferences null
(Object.keys throws), modelled as none. -/
def clearPrivateParams (st : SecretKeyPacket) (h : List (List Nat)) :
    Option (SecretKeyPacket × List (List Nat)) :=
  if isDummySK st then some (st, h)
  else
    match st.privateParams with
    | none => none
    | some ids =>
      some ({ st with privateParams := none, isEncrypted := some true },
            ids.foldl fillZero h)

theorem fillZero_getD (h : List (List Nat)) (j i : Nat) :
    (fillZero h j).getD i [] =
      if i = j then List.replicate ((h.getD i []).length) 0 else h.getD i [] := by
  by_cases hij : i = j
  · subst hij
    by_cases hlt : i < h.length
    · simp [fillZero, List.getD, List.getElem?_set_self, hlt]
    · have hle : h.length ≤ i := Nat.le_of_not_lt hlt
      simp [fillZero, List.set_eq_of_length_le hle, List.getD, List.getElem?_eq_none hle]
  · simp [fillZero, hij, List.getD, List.getElem?_set_ne (fun hh => hij hh.symm)]

theorem foldl_fillZero_getD (ids : List Nat) :
    ∀ (h : List (List Nat)) (i : Nat),
      (ids.foldl fillZero h).getD i [] =
        if i ∈ ids then List.replicate ((h.getD i []).length) 0 else h.getD i [] := by
  induction ids with
  | nil => intro h i; simp
  | cons j rest ih =>
    intro h i
    rw [List.foldl_cons, ih (fillZero h j) i, fillZero_getD]
    by_cases hij : i = j
    · subst hij
      by_cases hrest : i ∈ rest <;> simp [hrest, List.mem_cons]
    · by_cases hrest : i ∈ rest <;> simp [hij, hrest, List.mem_cons]

/-- Claim C6: for every non-dummy secret-key packet holding decrypted private
parameters, clearPrivateParams overwrites every byte of every
private-parameter array with zero (lengths preserved, so a retained view of
any parameter array contains only zeros), drops the reference list
(privateParams becomes null), marks the packet encrypted again, and touches
no other array of the store. -/
theorem clearPrivateParams_zeroizes (st : SecretKeyPacket) (h : List (List Nat))
    (ids : List Nat) (hpp : st.privateParams = some ids)
    (hnd : isDummySK st = false) :
    clearPrivateParams st h =
      some ({ st with privateParams := none, isEncrypted := some true },
            ids.foldl fillZero h)
    ∧ (∀ id ∈ ids,
        ((ids.foldl fillZero h).getD id []).length = (h.getD id []).length
        ∧ ∀ b ∈ (ids.foldl fillZero h).getD id [], b = 0)
    ∧ (∀ id, id ∉ ids → (ids.foldl fillZero h).getD id [] = h.getD id []) := by
  refine ⟨by simp [clearPrivateParams, hnd, hpp], ?_, ?_⟩
  · intro id hid
    rw [foldl_fillZero_getD ids h id]
    simp [hid]
  · intro id hid
    rw [foldl_fillZero_getD ids h id]
    simp [hid]

/-- Concrete decrypted secret-key packet for the C6 witness: its two private
parameter arrays are the entries 0 and 1 of the store. -/
def wSKDec : SecretKeyPacket :=
  { version := 4, algorithm := 22, publicParams := [1]
    s2kUsage := 0, symmetric := 9, aead := 0
    s2k := none, iv := [], keyMaterial := none
    isEncrypted := some false, privateParams := some [0, 1] }

/-- Witness for C6: clearing the concrete packet zeroizes both parameter
arrays of the store [[3, 4], [5]] while keeping their lengths. -/
theorem clearPrivateParams_zeroizes_witness :
    clearPrivateParams wSKDec [[3, 4], [5]] =
      some ({ wSKDec with privateParams := none, isEncrypted := some true },
            [0, 1].foldl fillZero [[3, 4], [5]])
    ∧ (∀ id ∈ [0, 1],
        (([0, 1].foldl fillZero [[3, 4], [5]]).getD id []).length =
          (([[3, 4], [5]] : List (List Nat)).getD id []).length
        ∧ ∀ b ∈ ([0, 1].foldl fillZero [[3, 4], [5]]).getD id [], b = 0)
    ∧ (∀ id, id ∉ ([0, 1] : List Nat) →
        ([0, 1].foldl fillZero [[3, 4], [5]]).getD id [] =
          ([[3, 4], [5]] : List (List Nat)).getD id []) :=
  clearPrivateParams_zeroizes wSKDec [[3, 4], [5]] [0, 1] rfl rfl

/-- Modelled from the spec: writePartialLength (packet.js, not among the
analysed sources): the one-octet partial-length header announcing 2 to the
given power (octet value 224 + power, RFC 4880). -/
def writePartialLength (power : Nat) : List Nat :=
  [224 + power]

/-- Modelled from the spec: writeSimpleLength (packet.js): RFC 4880 simple
length header; one octet below 192, two octets below 8384, otherwise the
octet 255 followed by the length as uint32be. -/
def writeSimpleLength (l : Nat) : List Nat :=
  if l < 192 then [l]
  else if l < 8384 then [(l - 192) / 256 + 192, (l - 192) % 256]
  else 255 :: writeNumber l 4

/-- The transform state of the streamed branch of PacketList.write: the list
of buffered input chunks and the tracked byte count. -/
structure StreamBuffer where
  buffer : List (List Nat)
  bufferLength : Nat

/-- One call of the transform callback in PacketList.write: push the incoming
value; once at least 512 bytes are buffered, pick the largest power of two at
most the buffered length (capped at 2 to the 30th), emit one partial-length
header followed by that many bytes, and retain the remainder.  Math.log over
Math.LN2 floored is modelled as Nat.log 2. -/
def partialChunkStep (st : StreamBuffer) (value : List Nat) : StreamBuffer × Option (List Nat) :=
  let buffer := st.buffer ++ [value]
  let bufferLength := st.bufferLength + value.length
  if 512 ≤ bufferLength then
    let powerOf2 := min (Nat.log 2 bufferLength) 30
    let chunkSize := 2 ^ powerOf2
    let bufferConcat := writePartialLength powerOf2 ++ buffer.flatten
    let rest := bufferConcat.drop (1 + chunkSize)
    ({ buffer := [rest], bufferLength := rest.length },
     some (bufferConcat.take (1 + chunkSize)))
  else
    ({ buffer := buffer, bufferLength := bufferLength }, none)

/-- The transform run over the whole body stream, collecting emitted pieces. -/
def partialChunkRun (st : StreamBuffer) : List (List Nat) → StreamBuffer × List (List Nat)
  | [] => (st, [])
  | v :: vs =>
    let r := partialChunkStep st v
    let rr := partialChunkRun r.1 vs
    (rr.1, r.2.toList ++ rr.2)

/-- The flush callback: a simple-length header for the residue, then the
residue. -/
def partialChunkFlush (st : StreamBuffer) : List Nat :=
  writeSimpleLength st.bufferLength ++ st.buffer.flatten

/-- The streamed-body framing of PacketList.write: the middle partial-length
pieces in order, and the final simple-length piece. -/
def writeStreamedBody (chunks : List (List Nat)) : List (List Nat) × List Nat :=
  let r := partialChunkRun { buffer := [], bufferLength := 0 } chunks
  (r.2, partialChunkFlush r.1)

/-- Shape of a middle emitted piece: a partial-length header octet 224 + p
followed by exactly 2 ^ p payload bytes, p being the largest power of two
at most the buffered length L (at least 512) at emission time, capped at 30;
this is min (Nat.log 2 L) 30 as the code computes it. -/
def GoodPiece (piece : List Nat) : Prop :=
  ∃ p payload L, piece = (224 + p) :: payload
    ∧ payload.length = 2 ^ p
    ∧ 9 ≤ p ∧ p ≤ 30
    ∧ 512 ≤ L ∧ 2 ^ p ≤ L ∧ (p ≠ 30 → L < 2 ^ (p + 1))
    ∧ p = min (Nat.log 2 L) 30

theorem partialChunkStep_emit (st : StreamBuffer) (value : List Nat)
    (hif : 512 ≤ st.bufferLength + value.length) :
    partialChunkStep st value =
      ({ buffer := [(st.buffer.flatten ++ value).drop
            (2 ^ min (Nat.log 2 (st.bufferLength + value.length)) 30)],
         bufferLength := ((st.buffer.flatten ++ value).drop
            (2 ^ min (Nat.log 2 (st.bufferLength + value.length)) 30)).length },
       some ((224 + min (Nat.log 2 (st.bufferLength + value.length)) 30) ::
         (st.buffer.flatten ++ value).take
            (2 ^ min (Nat.log 2 (st.bufferLength + value.length)) 30))) := by
  simp [partialChunkStep, hif, writePartialLength, Nat.one_add]

theorem partialChunkStep_buffer (st : StreamBuffer) (value : List Nat)
    (hif : ¬ 512 ≤ st.bufferLength + value.length) :
    partialChunkStep st value =
      ({ buffer := st.buffer ++ [value],
         bufferLength := st.bufferLength + value.length }, none) := by
  simp [partialChunkStep, hif]

theorem partialChunkRun_invariant (chunks : List (List Nat)) :
    ∀ st : StreamBuffer, st.bufferLength = st.buffer.flatten.length →
      (partialChunkRun st chunks).1.bufferLength =
          (partialChunkRun st chunks).1.buffer.flatten.length
      ∧ ((partialChunkRun st chunks).2.map (fun piece => piece.drop 1)).flatten
          ++ (partialChunkRun st chunks).1.buffer.flatten
          = st.buffer.flatten ++ chunks.flatten
      ∧ ∀ piece ∈ (partialChunkRun st chunks).2, GoodPiece piece := by
  induction chunks with
  | nil =>
    intro st hinv
    refine ⟨hinv, by simp [partialChunkRun], by simp [partialChunkRun]⟩
  | cons v vs ih =>
    intro st hinv
    by_cases hif : 512 ≤ st.bufferLength + v.length
    · have hstep := partialChunkStep_emit st v hif
      set L := st.bufferLength + v.length with hL
      set p := min (Nat.log 2 L) 30 with hp
      set J := st.buffer.flatten ++ v with hJdef
      set st1 : StreamBuffer :=
        { buffer := [J.drop (2 ^ p)], bufferLength := (J.drop (2 ^ p)).length } with hst1
      have hL0 : L ≠ 0 := by omega
      have hJlen : J.length = L := by
        rw [hJdef, List.length_append, ← hinv, hL]
      have hcsL : 2 ^ p ≤ L := by
        calc 2 ^ p ≤ 2 ^ Nat.log 2 L := Nat.pow_le_pow_right (by norm_num) (min_le_left _ _)
        _ ≤ L := Nat.pow_log_le_self 2 hL0
      have hrun : partialChunkRun st (v :: vs) =
          ((partialChunkRun st1 vs).1,
           ((224 + p) :: J.take (2 ^ p)) :: (partialChunkRun st1 vs).2) := by
        simp [partialChunkRun, hstep]
      have hinv1 : st1.bufferLength = st1.buffer.flatten.length := by
        rw [hst1]
        simp
      have hbuf1 : st1.buffer.flatten = J.drop (2 ^ p) := by
        rw [hst1]
        simp
      obtain ⟨ih1, ih2, ih3⟩ := ih st1 hinv1
      rw [hrun]
      refine ⟨ih1, ?_, ?_⟩
      · simp only [List.map_cons, List.flatten_cons, List.drop_one, List.tail_cons]
        simp only [List.drop_one, List.flatten_cons, List.flatten_nil,
          List.append_nil] at ih2
        rw [List.append_assoc, ih2, ← List.append_assoc, List.take_append_drop, hJdef,
          List.append_assoc]
      · intro piece hmem
        rw [List.mem_cons] at hmem
        rcases hmem with hmem | hmem
        · subst hmem
          refine ⟨p, J.take (2 ^ p), L, rfl, ?_, ?_, min_le_right _ _, hif, hcsL, ?_, hp⟩
          · rw [List.length_take, hJlen]
            exact Nat.min_eq_left hcsL
          · have h512 : (2 : Nat) ^ 9 ≤ L := by
              calc (2 : Nat) ^ 9 = 512 := by norm_num
              _ ≤ L := hif
            have hlog : 9 ≤ Nat.log 2 L :=
              (Nat.pow_le_iff_le_log (by norm_num) hL0).mp h512
            exact le_min hlog (by norm_num)
          · intro hne
            have hmin : p = Nat.log 2 L := by
              rcases Nat.lt_or_ge (Nat.log 2 L) 30 with hlt | hge
              · rw [hp, Nat.min_eq_left (Nat.le_of_lt hlt)]
              · exact absurd (by rw [hp, Nat.min_eq_right hge]) hne
            rw [hmin]
            exact Nat.lt_pow_succ_log_self (by norm_num) L
        · exact ih3 piece hmem
    · have hstep := partialChunkStep_buffer st v hif
      set st1 : StreamBuffer :=
        { buffer := st.buffer ++ [v], bufferLength := st.bufferLength + v.length } with hst1
      have hrun : partialChunkRun st (v :: vs) =
          ((partialChunkRun st1 vs).1, (partialChunkRun st1 vs).2) := by
        simp [partialChunkRun, hstep]
      have hinv1 : st1.bufferLength = st1.buffer.flatten.length := by
        rw [hst1]
        simp [hinv]
      have hbuf1 : st1.buffer.flatten = st.buffer.flatten ++ v := by
        rw [hst1]
        simp
      obtain ⟨ih1, ih2, ih3⟩ := ih st1 hinv1
      rw [hrun]
      refine ⟨ih1, ?_, ?_⟩
      · rw [ih2, hbuf1, List.flatten_cons, List.append_assoc]
      · intro piece hmem
        exact ih3 piece hmem

/-- Claim C3: for every streamed packet body (any division of the payload
into chunks), the streamed write emits middle pieces and a final piece such
that: the concatenation of the middle payloads followed by the final residue
is exactly the original payload; the final residue is emitted under a
simple-length header; and every middle piece is a partial-length header for a
power p with exactly 2 ^ p payload bytes, 2 ^ p being the largest power of
two at most the buffered length at emission time (at least 512), capped at
2 ^ 30. -/
theorem packetList_write_partial_framing (chunks : List (List Nat)) :
    (∃ residue,
      (writeStreamedBody chunks).2 = writeSimpleLength residue.length ++ residue
      ∧ ((writeStreamedBody chunks).1.map (fun piece => piece.drop 1)).flatten ++ residue
          = chunks.flatten)
    ∧ ∀ piece ∈ (writeStreamedBody chunks).1, GoodPiece piece := by
  obtain ⟨h1, h2, h3⟩ :=
    partialChunkRun_invariant chunks { buffer := [], bufferLength := 0 } (by simp)
  refine ⟨⟨(partialChunkRun { buffer := [], bufferLength := 0 } chunks).1.buffer.flatten,
    ?_, ?_⟩, ?_⟩
  · simp only [writeStreamedBody, partialChunkFlush]
    rw [h1]
  · simp only [writeStreamedBody]
    simpa using h2
  · simpa [writeStreamedBody] using h3
